import Mathlib

/-!
Verification of the cost-aggregation core of `pkg/svc/aws_api.go` (seizadi/aws-cost).

Shallow embedding conventions:
  * Go `float64` values are modelled as rationals (`ℚ`); all arithmetic in the
    source is elementary (+, -, *, /) on decimal data, so the embedding is exact.
  * A metric's `Amount` field is a `*string` parsed with `strconv.ParseFloat`.
    We model the parse outcome directly: `some q` is a string that parses to the
    number `q`; `none` is a string that fails to parse (Go's `ParseFloat` then
    returns `0` together with an error that every call site discards with `_`).
    A nil `Amount` pointer (which would crash the source) is out of scope.
  * Go maps iterated with `range` have an unspecified iteration order.  Functions
    whose output depends on that order (`getGroupedAwsProducts`,
    `getEntityAwsProducts`) take the enumeration of the key map as an explicit
    `order` parameter; theorems quantify over enumerations that are permutations
    of the built key index.
  * Each Go function returning `(T, error)` is modelled as `T × Option String`;
    the source never constructs a non-nil error in these functions.
  * Configuration read through viper (`support.cost`, `account.type`,
    `cost.round`) is collected in a `Config` record passed explicitly.
-/

namespace AwsCost

/-- Configuration values the source reads through viper. -/
structure Config where
  supportCost : Bool
  accountType : String
  costRound : Bool
deriving Repr

/-- Model of `ceTypes.MetricValue`: `Amount` is the parse outcome of the
amount string (`none` = the string does not parse as a decimal number). -/
structure MetricValue where
  Amount : Option ℚ
deriving Repr, DecidableEq

instance : Inhabited MetricValue := ⟨⟨none⟩⟩

/-- Model of `ceTypes.Group`: key strings and the metric map
(`map[string]MetricValue`, modelled as an association list). -/
structure Group where
  Keys : List String
  Metrics : List (String × MetricValue)
deriving Repr, DecidableEq

/-- Model of `ceTypes.ResultByTime`: a billing period with its start date,
the `Total` metric map and the optional `Groups`. -/
structure ResultByTime where
  Start : String
  Total : List (String × MetricValue)
  Groups : List Group
deriving Repr, DecidableEq

/-- Output point `pb.DateAggregation`. -/
structure DateAggregation where
  Date : String
  Amount : ℚ
deriving Repr, DecidableEq

/-- Output element `pb.ProductCost` (grouped view). -/
structure ProductCost where
  Id : String
  Aggregation : List DateAggregation
deriving Repr, DecidableEq

/-- Output element `pb.Entity` restricted to the fields the aggregation
computes: the two-bucket `Aggregation` vector `[before, after]` is modelled as
a pair.  The `Change` field is produced by the external `utils.ChangeOfEntity`
(outside this repository's core) from exactly this pair and carries no further
information relevant to the claims. -/
structure Entity where
  Id : String
  Aggregation : ℚ × ℚ
deriving Repr, DecidableEq

/-- Model of `SupportCostThreshold`. -/
structure SupportCostThreshold where
  CostMultiplier : ℚ
  CostStartInterval : ℚ
  CostEndInterval : ℚ
deriving Repr, DecidableEq

instance : Inhabited SupportCostThreshold := ⟨⟨0, 0, 0⟩⟩

/-- Model of `AwsAccount` (the account type tag plus the support-cost profile). -/
structure AwsAccount where
  AccountType : String
  MinSupportCost : ℚ
  SupportCostThresholds : List SupportCostThreshold
deriving Repr, DecidableEq

/-- The `DeveloperAccount` entry of the `AwsAccounts` table.  The Go decimal
literals denote exact rationals: `0.03` is `3/100`, `29.00` is `29`, etc. -/
def DeveloperAwsAccount : AwsAccount :=
  ⟨"DEVELOPER", 29, [⟨3/100, 0, 0⟩]⟩

/-- The `BusinessAccount` entry of the `AwsAccounts` table (`0.10` = `1/10`,
`0.07` = `7/100`, `0.05` = `5/100`, `0.03` = `3/100`, `100.00` = `100`). -/
def BusinessAwsAccount : AwsAccount :=
  ⟨"BUSINESS", 100,
    [⟨1/10, 0, 10000⟩, ⟨7/100, 10000, 80000⟩,
     ⟨5/100, 80000, 250000⟩, ⟨3/100, 250000, 0⟩]⟩

/-- The `EnterpriseAccount` entry of the `AwsAccounts` table (same rates as the
Business profile over larger intervals, minimum `15000.00` = `15000`). -/
def EnterpriseAwsAccount : AwsAccount :=
  ⟨"ENTERPRISE", 15000,
    [⟨1/10, 0, 150000⟩, ⟨7/100, 150000, 500000⟩,
     ⟨5/100, 500000, 1000000⟩, ⟨3/100, 1000000, 0⟩]⟩

/-- The `AwsAccounts` map; a missing key yields Go's zero value. -/
def AwsAccounts (t : String) : AwsAccount :=
  if t = "DEVELOPER" then DeveloperAwsAccount
  else if t = "BUSINESS" then BusinessAwsAccount
  else if t = "ENTERPRISE" then EnterpriseAwsAccount
  else ⟨"", 0, []⟩

/-- Go's `math.Round` (round half away from zero) on the rational model. -/
def mathRound (x : ℚ) : ℚ :=
  if x < 0 then -((⌊-x + 1/2⌋ : ℤ) : ℚ) else ((⌊x + 1/2⌋ : ℤ) : ℚ)

/-- Model of `getAwsMetricAmount`: parse the amount (parse failure yields 0,
the error is discarded) and optionally round per the `cost.round` flag. -/
def getAwsMetricAmount (cfg : Config) (metric : MetricValue) : ℚ :=
  let amount := metric.Amount.getD 0
  if cfg.costRound then mathRound amount else amount

/-- The `string(ceTypes.MetricNetAmortizedCost)` key used by `SupportCostForAWS`. -/
def MetricNetAmortizedCost : String := "NET_AMORTIZED_COST"

/-- Amount contribution of one period inside `SupportCostForAWS`:
`strconv.ParseFloat(*result.Total[MetricNetAmortizedCost].Amount, 64)` with the
error discarded (parse failure contributes 0).  A period lacking the metric
entirely would crash the source on a nil pointer; such inputs are excluded by
the well-formedness hypotheses of the theorems that need them. -/
def netAmortizedAmount (r : ResultByTime) : ℚ :=
  (((r.Total.lookup MetricNetAmortizedCost).bind MetricValue.Amount).getD 0)

/-- The summation loop of `SupportCostForAWS` over all periods. -/
def sumNetAmortized (results : List ResultByTime) : ℚ :=
  results.foldl (fun acc r => acc + netAmortizedAmount r) 0

/-- The bracket-walking loop of `SupportCostForAWS` (lines 174-192 of
`aws_api.go`), with `total` the summed amount and `acc` the accumulated
surcharge.  Note the source's exact comparisons: when `total` equals a finite
`CostEndInterval` neither inner branch fires and the loop continues without
accumulating that bracket. -/
def walkThresholds (total : ℚ) : List SupportCostThreshold → ℚ → ℚ
  | [], acc => acc
  | t :: ts, acc =>
    if t.CostStartInterval > total then acc
    else if t.CostEndInterval ≠ 0 then
      if t.CostEndInterval > total then
        acc + (total - t.CostStartInterval) * t.CostMultiplier
      else if total > t.CostEndInterval then
        walkThresholds total ts
          (acc + (t.CostEndInterval - t.CostStartInterval) * t.CostMultiplier)
      else walkThresholds total ts acc
    else acc + (total - t.CostStartInterval) * t.CostMultiplier

/-- `SupportCostForAWS` as a function of the summed total: the minimum-floor
check against `SupportCostThresholds[0]` followed by the bracket walk. -/
def supportCostOfTotal (account : AwsAccount) (total : ℚ) : ℚ :=
  if total * account.SupportCostThresholds.headI.CostMultiplier
      < account.MinSupportCost then
    account.MinSupportCost
  else
    walkThresholds total account.SupportCostThresholds 0

/-- Model of `SupportCostForAWS` (lines 161-193): sum the net-amortized metric
over all periods, then apply the floor check and the bracket walk.  The Go
function always returns a nil error. -/
def SupportCostForAWS (account : AwsAccount) (results : List ResultByTime) :
    ℚ × Option String :=
  (supportCostOfTotal account (sumNetAmortized results), none)

/-- Convenience constructor for a period carrying only the net-amortized total. -/
def netPeriod (date : String) (q : ℚ) : ResultByTime :=
  ⟨date, [(MetricNetAmortizedCost, ⟨some q⟩)], []⟩

/-- Piecewise (region) characterization of the Business surcharge, used to
organize the analysis of `supportCostOfTotal BusinessAwsAccount`.  Note the
values at totals exactly equal to a finite bracket upper bound (10000, 80000,
250000): the source's strict comparisons skip that bracket's accumulation. -/
def busRegion (t : ℚ) : ℚ :=
  if t * (1/10) < 100 then 100
  else if t < 10000 then t * (1/10)
  else if t = 10000 then 0
  else if t < 80000 then 1000 + (t - 10000) * (7/100)
  else if t = 80000 then 1000
  else if t < 250000 then 5900 + (t - 80000) * (5/100)
  else if t = 250000 then 5900
  else 14400 + (t - 250000) * (3/100)

/-- Piecewise (region) characterization of the Enterprise surcharge.  The
floor region `t·(1/10) < 15000` is exactly `t < 150000`, so it meets the first
bracket boundary; the boundary values again drop the skipped bracket. -/
def entRegion (t : ℚ) : ℚ :=
  if t * (1/10) < 15000 then 15000
  else if t < 150000 then t * (1/10)
  else if t = 150000 then 0
  else if t < 500000 then 15000 + (t - 150000) * (7/100)
  else if t = 500000 then 15000
  else if t < 1000000 then 39500 + (t - 500000) * (5/100)
  else if t = 1000000 then 39500
  else 64500 + (t - 1000000) * (3/100)

/-- Piecewise characterization of the Developer surcharge (single unbounded
bracket, so only the floor and the linear part). -/
def devRegion (t : ℚ) : ℚ :=
  if t * (3/100) < 29 then 29 else t * (3/100)

/-- The date-series accumulation loop of `aggregationForAWS` (lines 138-150),
with the support cost already computed.  For each period the inner loop over
the `Total` metric map overwrites `value.Amount` with the metric's amount plus
the per-date share `supCost / len(results)` (so the map's last entry wins, and
an empty map leaves the zero initial value), and the point is appended only if
the resulting amount is strictly positive. -/
def dateAggregationLoop (cfg : Config) (supCost : ℚ) (results : List ResultByTime) :
    List DateAggregation :=
  results.foldl
    (fun ret r =>
      let amount := r.Total.foldl
        (fun _ m => getAwsMetricAmount cfg m.2 + supCost / (results.length : ℚ)) 0
      if 0 < amount then ret ++ [⟨r.Start, amount⟩] else ret)
    []

/-- Model of `aggregationForAWS` (lines 128-159): when the `support.cost` flag
is set, compute the support cost for the account looked up under the configured
type (discarding the error just as the source does), then run the accumulation
loop.  Always returns a nil error. -/
def aggregationForAWS (cfg : Config) (results : List ResultByTime) :
    List DateAggregation × Option String :=
  let supCost := if cfg.supportCost
    then (SupportCostForAWS (AwsAccounts cfg.accountType) results).1 else 0
  (dateAggregationLoop cfg supCost results, none)

/-- Model of `getGroupedAwsKeyIndex` (lines 203-215): scan periods then groups
left to right, assigning the next index (the current map size) to each unseen
first key `group.Keys[0]` (modelled as `Keys.headI`; a group with no keys would
crash the source).  The Go map is modelled as the association list in insertion
order: lookups and the size are all the loop reads, so the insertion-ordered
list carries the whole map state. -/
def getGroupedAwsKeyIndex (results : List ResultByTime) : List (String × ℕ) :=
  results.foldl
    (fun keys r =>
      r.Groups.foldl
        (fun keys g =>
          if (keys.lookup g.Keys.headI).isSome then keys
          else keys ++ [(g.Keys.headI, keys.length)])
        keys)
    []

/-- The last-metric extraction loop shared by the grouped and entity
aggregators: `for _, metric := range group.Metrics { amount = ... }` (the map's
last entry wins; an empty map leaves 0). -/
def groupAmount (cfg : Config) (g : Group) : ℚ :=
  g.Metrics.foldl (fun _ m => getAwsMetricAmount cfg m.2) 0

/-- One group step of the series loop of `getGroupedAwsProducts` (lines
232-247).  The `costs` array indexed through `keys[group.Keys[0]]` is modelled
as a total function from the key string to its accumulated series (each slot of
the array belongs to exactly one key, and every key a group can produce is in
the map). -/
def groupedSeriesStep (cfg : Config) (date : String)
    (st : String → List DateAggregation) (g : Group) :
    String → List DateAggregation :=
  let amount := groupAmount cfg g
  if 0 < amount then
    fun k => if k = g.Keys.headI then st g.Keys.headI ++ [⟨date, amount⟩] else st k
  else st

/-- The two nested series loops of `getGroupedAwsProducts` over all periods. -/
def groupedSeriesState (cfg : Config) (results : List ResultByTime) :
    String → List DateAggregation :=
  results.foldl (fun st r => r.Groups.foldl (groupedSeriesStep cfg r.Start) st)
    (fun _ => [])

/-- Model of `getGroupedAwsProducts` (lines 220-257).  The final loop
`for _, index := range keys` enumerates the Go key map in an unspecified order;
the `order` parameter supplies that enumeration, and theorems quantify over
permutations of `getGroupedAwsKeyIndex results`.  Always returns a nil error.
(`getGroupedAwsProjects` is the same function modulo the output type name.) -/
def getGroupedAwsProducts (cfg : Config) (order : List (String × ℕ))
    (results : List ResultByTime) : List ProductCost × Option String :=
  let st := groupedSeriesState cfg results
  (order.foldl
    (fun acc ki =>
      if 0 < (st ki.1).length then acc ++ [⟨ki.1, st ki.1⟩] else acc)
    [], none)

/-- One group step of `getEntityAwsProducts` (lines 327-341): add the group's
amount into bucket 1 when `i >= midPoint`, into bucket 0 otherwise. -/
def entityGroupStep (cfg : Config) (midPoint i : ℕ)
    (st : String → ℚ × ℚ) (g : Group) : String → ℚ × ℚ :=
  let amount := groupAmount cfg g
  if midPoint ≤ i then
    fun k =>
      if k = g.Keys.headI then ((st g.Keys.headI).1, (st g.Keys.headI).2 + amount)
      else st k
  else
    fun k =>
      if k = g.Keys.headI then ((st g.Keys.headI).1 + amount, (st g.Keys.headI).2)
      else st k

/-- The indexed outer loop `for i, result := range results` of
`getEntityAwsProducts`, carrying the running period index. -/
def entityLoop (cfg : Config) (midPoint : ℕ) :
    ℕ → List ResultByTime → (String → ℚ × ℚ) → (String → ℚ × ℚ)
  | _, [], st => st
  | i, r :: rs, st =>
    entityLoop cfg midPoint (i + 1) rs (r.Groups.foldl (entityGroupStep cfg midPoint i) st)

/-- Model of `getEntityAwsProducts` (lines 304-352): split at
`midPoint = len(results) / 2`, accumulate each group's amount into the
before/after buckets of its key, and emit (in map-enumeration order, see
`getGroupedAwsProducts`) every key whose pair is not both exactly zero.  The
`Change` field of each emitted entity is computed by the external
`utils.ChangeOfEntity` from exactly the emitted pair and is not modelled.
Always returns a nil error. -/
def getEntityAwsProducts (cfg : Config) (order : List (String × ℕ))
    (results : List ResultByTime) : List Entity × Option String :=
  let midPoint := results.length / 2
  let st := entityLoop cfg midPoint 0 results (fun _ => (0, 0))
  (order.foldl
    (fun acc ki =>
      if ¬((st ki.1).1 = 0 ∧ (st ki.1).2 = 0) then acc ++ [⟨ki.1, st ki.1⟩]
      else acc)
    [], none)

/-- Amount of the designated (single) cost metric of a period, used to state
the date-series contract. -/
def periodMetricAmount (cfg : Config) (r : ResultByTime) : ℚ :=
  getAwsMetricAmount cfg r.Total.headI.2

/-- Keys of `l` that are not in `seen`, first occurrence only, in order. -/
def fsE (seen : List String) : List String → List String
  | [] => []
  | k :: l => if k ∈ seen then fsE seen l else k :: fsE (seen ++ [k]) l

/-- The distinct elements of a key list in first-seen order. -/
def firstSeen (l : List String) : List String := fsE [] l

/-- All first-level group keys of a period sequence, in scan order (periods
left to right, then groups left to right). -/
def allGroupKeys (results : List ResultByTime) : List String :=
  (results.flatMap ResultByTime.Groups).map (fun g => g.Keys.headI)

/-- Specification-side description of one key's series: one point per
period/group occurrence of the key whose amount is strictly positive, carrying
the period's start date, in scan order. -/
def directSeries (cfg : Config) (results : List ResultByTime) (k : String) :
    List DateAggregation :=
  results.flatMap
    (fun r => r.Groups.filterMap
      (fun g =>
        if g.Keys.headI = k ∧ 0 < groupAmount cfg g then
          some ⟨r.Start, groupAmount cfg g⟩
        else none))

/-- Sum of the amounts of the groups of one period that carry the key. -/
def groupKeySum (cfg : Config) (k : String) (gs : List Group) : ℚ :=
  ((gs.filter (fun g => g.Keys.headI = k)).map (groupAmount cfg)).sum

/-- Sum of the key's group amounts over a subsequence of the periods. -/
def periodKeySum (cfg : Config) (k : String) (rs : List ResultByTime) : ℚ :=
  (rs.map (fun r => groupKeySum cfg k r.Groups)).sum

/-- The key-index insertion step of `getGroupedAwsKeyIndex`, folded over the
flat key sequence (used to reason about the nested loops uniformly). -/
def addKeys (l : List String) (s : List (String × ℕ)) : List (String × ℕ) :=
  l.foldl
    (fun keys k =>
      if (keys.lookup k).isSome then keys else keys ++ [(k, keys.length)])
    s

/-- Example period with two positive groups "A" and "B", used to exhibit the
map-enumeration order of the grouped output. -/
def exPeriod1 : ResultByTime :=
  ⟨"2021-01-01", [],
   [⟨["A"], [("UnblendedCost", ⟨some 10⟩)]⟩,
    ⟨["B"], [("UnblendedCost", ⟨some 20⟩)]⟩]⟩

/-- A configuration with every feature flag off. -/
def cfg0 : Config := ⟨false, "", false⟩

/-- Example period carrying a single "EC2" group with the given amount. -/
def exEC2 (date : String) (q : ℚ) : ResultByTime :=
  ⟨date, [], [⟨["EC2"], [("UnblendedCost", ⟨some q⟩)]⟩]⟩

/-- C1: for the Business bracket configuration with minimum 100, the surcharge
for a summed total of 50000 is exactly 3800 (= 10000·0.10 + 40000·0.07) and the
surcharge for a summed total of 5000 is exactly 500 (the floor check
5000·0.10 = 500 ≥ 100 passes and the total falls in the first bracket). -/
theorem supportCost_business_examples :
    SupportCostForAWS BusinessAwsAccount [netPeriod "2021-01-01" 50000] = (3800, none)
    ∧ SupportCostForAWS BusinessAwsAccount [netPeriod "2021-01-01" 5000] = (500, none) := by
  constructor <;>
    norm_num [SupportCostForAWS, supportCostOfTotal, sumNetAmortized, netAmortizedAmount,
      netPeriod, walkThresholds, BusinessAwsAccount, MetricNetAmortizedCost, List.lookup]

/-- C3: whenever the summed total times the first bracket's rate is below the
profile's minimum, `SupportCostForAWS` returns exactly the minimum flat
surcharge with no error, and no bracket accumulation is performed: the result
is unchanged under arbitrary replacement of every bracket after the first. -/
theorem supportCost_floor (account : AwsAccount) (t0 : SupportCostThreshold)
    (rest : List SupportCostThreshold) (results : List ResultByTime)
    (hts : account.SupportCostThresholds = t0 :: rest)
    (hfloor : sumNetAmortized results * t0.CostMultiplier < account.MinSupportCost) :
    SupportCostForAWS account results = (account.MinSupportCost, none)
    ∧ ∀ rest' : List SupportCostThreshold,
        SupportCostForAWS ⟨account.AccountType, account.MinSupportCost, t0 :: rest'⟩ results
          = (account.MinSupportCost, none) := by
  have h1 : account.SupportCostThresholds.headI = t0 := by rw [hts]; rfl
  constructor
  · unfold SupportCostForAWS supportCostOfTotal
    rw [h1, if_pos hfloor]
  · intro rest'
    unfold SupportCostForAWS supportCostOfTotal
    simp only [List.headI]
    rw [if_pos hfloor]

/-- Witness for `supportCost_floor`: the Business profile with a summed total
of 500 (500·0.10 = 50 < 100), yielding the flat minimum 100. -/
theorem supportCost_floor_witness :
    BusinessAwsAccount.SupportCostThresholds
        = (⟨1/10, 0, 10000⟩ : SupportCostThreshold)
            :: [⟨7/100, 10000, 80000⟩, ⟨5/100, 80000, 250000⟩,
                ⟨3/100, 250000, 0⟩]
    ∧ sumNetAmortized [netPeriod "d" 500]
          * (SupportCostThreshold.mk (1/10) 0 10000).CostMultiplier
        < BusinessAwsAccount.MinSupportCost
    ∧ SupportCostForAWS BusinessAwsAccount [netPeriod "d" 500]
        = (BusinessAwsAccount.MinSupportCost, none) := by
  have hts : BusinessAwsAccount.SupportCostThresholds
      = (⟨1/10, 0, 10000⟩ : SupportCostThreshold)
          :: [⟨7/100, 10000, 80000⟩, ⟨5/100, 80000, 250000⟩,
              ⟨3/100, 250000, 0⟩] := rfl
  have hfloor : sumNetAmortized [netPeriod "d" 500]
        * (SupportCostThreshold.mk (1/10) 0 10000).CostMultiplier
      < BusinessAwsAccount.MinSupportCost := by
    norm_num [sumNetAmortized, netAmortizedAmount, netPeriod, BusinessAwsAccount,
      MetricNetAmortizedCost, List.lookup]
  exact ⟨hts, hfloor, (supportCost_floor _ _ _ _ hts hfloor).1⟩

/-- Full symbolic expansion of the Business bracket walk: every comparison the
source performs appears as an `if`, and each accumulator value is kept as the
exact arithmetic the walk builds.  Proved by reflexivity, so it is literally
the unfolded source computation. -/
theorem supportCost_business_closed (t : ℚ) :
    supportCostOfTotal BusinessAwsAccount t =
      (if t * (1/10) < 100 then (100:ℚ)
       else
        if 0 > t then 0
        else if 10000 > t then 0 + (t - 0) * (1/10)
        else if t > 10000 then
          (if 10000 > t then 0 + (10000 - 0) * (1/10)
           else if 80000 > t then 0 + (10000 - 0) * (1/10) + (t - 10000) * (7/100)
           else if t > 80000 then
             (if 80000 > t then
                0 + (10000 - 0) * (1/10) + (80000 - 10000) * (7/100)
              else if 250000 > t then
                0 + (10000 - 0) * (1/10) + (80000 - 10000) * (7/100)
                  + (t - 80000) * (5/100)
              else if t > 250000 then
                (if 250000 > t then
                   0 + (10000 - 0) * (1/10) + (80000 - 10000) * (7/100)
                     + (250000 - 80000) * (5/100)
                 else
                   0 + (10000 - 0) * (1/10) + (80000 - 10000) * (7/100)
                     + (250000 - 80000) * (5/100) + (t - 250000) * (3/100))
              else
                (if 250000 > t then
                   0 + (10000 - 0) * (1/10) + (80000 - 10000) * (7/100)
                 else
                   0 + (10000 - 0) * (1/10) + (80000 - 10000) * (7/100)
                     + (t - 250000) * (3/100)))
           else
             (if 80000 > t then 0 + (10000 - 0) * (1/10)
              else if 250000 > t then
                0 + (10000 - 0) * (1/10) + (t - 80000) * (5/100)
              else if t > 250000 then
                (if 250000 > t then
                   0 + (10000 - 0) * (1/10) + (250000 - 80000) * (5/100)
                 else
                   0 + (10000 - 0) * (1/10) + (250000 - 80000) * (5/100)
                     + (t - 250000) * (3/100))
              else
                (if 250000 > t then 0 + (10000 - 0) * (1/10)
                 else 0 + (10000 - 0) * (1/10) + (t - 250000) * (3/100))))
        else
          (if 10000 > t then 0
           else if 80000 > t then 0 + (t - 10000) * (7/100)
           else if t > 80000 then
             (if 80000 > t then 0 + (80000 - 10000) * (7/100)
              else if 250000 > t then
                0 + (80000 - 10000) * (7/100) + (t - 80000) * (5/100)
              else if t > 250000 then
                (if 250000 > t then
                   0 + (80000 - 10000) * (7/100) + (250000 - 80000) * (5/100)
                 else
                   0 + (80000 - 10000) * (7/100) + (250000 - 80000) * (5/100)
                     + (t - 250000) * (3/100))
              else
                (if 250000 > t then 0 + (80000 - 10000) * (7/100)
                 else 0 + (80000 - 10000) * (7/100) + (t - 250000) * (3/100)))
           else
             (if 80000 > t then 0
              else if 250000 > t then 0 + (t - 80000) * (5/100)
              else if t > 250000 then
                (if 250000 > t then 0 + (250000 - 80000) * (5/100)
                 else 0 + (250000 - 80000) * (5/100) + (t - 250000) * (3/100))
              else
                (if 250000 > t then 0
                 else 0 + (t - 250000) * (3/100))))) := rfl

/-- The Business surcharge agrees with its piecewise region form everywhere. -/
theorem supportCost_business_region (t : ℚ) :
    supportCostOfTotal BusinessAwsAccount t = busRegion t := by
  rw [supportCost_business_closed]
  unfold busRegion
  by_cases hf : t * (1/10) < 100
  · rw [if_pos hf, if_pos hf]
  · rw [if_neg hf, if_neg hf]
    have ht : (1000:ℚ) ≤ t := by
      have := not_lt.mp hf
      linarith
    rw [if_neg (not_lt.mpr (by linarith : (0:ℚ) ≤ t))]
    rcases lt_trichotomy t 10000 with h1 | h1 | h1
    · rw [if_pos (show (10000:ℚ) > t from h1), if_pos h1]
      ring
    · subst h1
      rw [if_neg (show ¬(10000:ℚ) > 10000 by norm_num),
          if_neg (show ¬(10000:ℚ) > 10000 by norm_num),
          if_neg (show ¬(10000:ℚ) > 10000 by norm_num),
          if_pos (show (80000:ℚ) > 10000 by norm_num),
          if_neg (show ¬(10000:ℚ) < 10000 by norm_num),
          if_pos (show (10000:ℚ) = 10000 from rfl)]
      norm_num
    · rw [if_neg (not_lt.mpr (le_of_lt h1)),
          if_pos (show t > 10000 from h1),
          if_neg (not_lt.mpr (le_of_lt h1)),
          if_neg (not_lt.mpr (le_of_lt h1)),
          if_neg h1.ne']
      rcases lt_trichotomy t 80000 with h2 | h2 | h2
      · rw [if_pos (show (80000:ℚ) > t from h2), if_pos h2]
        ring
      · subst h2
        rw [if_neg (show ¬(80000:ℚ) > 80000 by norm_num),
            if_neg (show ¬(80000:ℚ) > 80000 by norm_num),
            if_neg (show ¬(80000:ℚ) > 80000 by norm_num),
            if_pos (show (250000:ℚ) > 80000 by norm_num),
            if_neg (show ¬(80000:ℚ) < 80000 by norm_num),
            if_pos (show (80000:ℚ) = 80000 from rfl)]
        norm_num
      · rw [if_neg (not_lt.mpr (le_of_lt h2)),
            if_pos (show t > 80000 from h2),
            if_neg (not_lt.mpr (le_of_lt h2)),
            if_neg (not_lt.mpr (le_of_lt h2)),
            if_neg h2.ne']
        rcases lt_trichotomy t 250000 with h3 | h3 | h3
        · rw [if_pos (show (250000:ℚ) > t from h3), if_pos h3]
          ring
        · subst h3
          rw [if_neg (show ¬(250000:ℚ) > 250000 by norm_num),
              if_neg (show ¬(250000:ℚ) > 250000 by norm_num),
              if_neg (show ¬(250000:ℚ) > 250000 by norm_num),
              if_neg (show ¬(250000:ℚ) < 250000 by norm_num),
              if_pos (show (250000:ℚ) = 250000 from rfl)]
          norm_num
        · rw [if_neg (not_lt.mpr (le_of_lt h3)),
              if_pos (show t > 250000 from h3),
              if_neg (not_lt.mpr (le_of_lt h3)),
              if_neg (not_lt.mpr (le_of_lt h3)),
              if_neg h3.ne']
          ring

/-- Full symbolic expansion of the Enterprise bracket walk: every comparison the
source performs appears as an `if`, and each accumulator value is kept as the
exact arithmetic the walk builds.  Proved by reflexivity, so it is literally
the unfolded source computation. -/
theorem supportCost_enterprise_closed (t : ℚ) :
    supportCostOfTotal EnterpriseAwsAccount t =
      (if t * (1/10) < 15000 then (15000:ℚ)
       else
        if 0 > t then 0
        else if 150000 > t then 0 + (t - 0) * (1/10)
        else if t > 150000 then
          (if 150000 > t then 0 + (150000 - 0) * (1/10)
           else if 500000 > t then 0 + (150000 - 0) * (1/10) + (t - 150000) * (7/100)
           else if t > 500000 then
             (if 500000 > t then
                0 + (150000 - 0) * (1/10) + (500000 - 150000) * (7/100)
              else if 1000000 > t then
                0 + (150000 - 0) * (1/10) + (500000 - 150000) * (7/100)
                  + (t - 500000) * (5/100)
              else if t > 1000000 then
                (if 1000000 > t then
                   0 + (150000 - 0) * (1/10) + (500000 - 150000) * (7/100)
                     + (1000000 - 500000) * (5/100)
                 else
                   0 + (150000 - 0) * (1/10) + (500000 - 150000) * (7/100)
                     + (1000000 - 500000) * (5/100) + (t - 1000000) * (3/100))
              else
                (if 1000000 > t then
                   0 + (150000 - 0) * (1/10) + (500000 - 150000) * (7/100)
                 else
                   0 + (150000 - 0) * (1/10) + (500000 - 150000) * (7/100)
                     + (t - 1000000) * (3/100)))
           else
             (if 500000 > t then 0 + (150000 - 0) * (1/10)
              else if 1000000 > t then
                0 + (150000 - 0) * (1/10) + (t - 500000) * (5/100)
              else if t > 1000000 then
                (if 1000000 > t then
                   0 + (150000 - 0) * (1/10) + (1000000 - 500000) * (5/100)
                 else
                   0 + (150000 - 0) * (1/10) + (1000000 - 500000) * (5/100)
                     + (t - 1000000) * (3/100))
              else
                (if 1000000 > t then 0 + (150000 - 0) * (1/10)
                 else 0 + (150000 - 0) * (1/10) + (t - 1000000) * (3/100))))
        else
          (if 150000 > t then 0
           else if 500000 > t then 0 + (t - 150000) * (7/100)
           else if t > 500000 then
             (if 500000 > t then 0 + (500000 - 150000) * (7/100)
              else if 1000000 > t then
                0 + (500000 - 150000) * (7/100) + (t - 500000) * (5/100)
              else if t > 1000000 then
                (if 1000000 > t then
                   0 + (500000 - 150000) * (7/100) + (1000000 - 500000) * (5/100)
                 else
                   0 + (500000 - 150000) * (7/100) + (1000000 - 500000) * (5/100)
                     + (t - 1000000) * (3/100))
              else
                (if 1000000 > t then 0 + (500000 - 150000) * (7/100)
                 else 0 + (500000 - 150000) * (7/100) + (t - 1000000) * (3/100)))
           else
             (if 500000 > t then 0
              else if 1000000 > t then 0 + (t - 500000) * (5/100)
              else if t > 1000000 then
                (if 1000000 > t then 0 + (1000000 - 500000) * (5/100)
                 else 0 + (1000000 - 500000) * (5/100) + (t - 1000000) * (3/100))
              else
                (if 1000000 > t then 0
                 else 0 + (t - 1000000) * (3/100))))) := rfl

/-- The Enterprise surcharge agrees with its piecewise region form everywhere. -/
theorem supportCost_enterprise_region (t : ℚ) :
    supportCostOfTotal EnterpriseAwsAccount t = entRegion t := by
  rw [supportCost_enterprise_closed]
  unfold entRegion
  by_cases hf : t * (1/10) < 15000
  · rw [if_pos hf, if_pos hf]
  · rw [if_neg hf, if_neg hf]
    have ht : (150000:ℚ) ≤ t := by
      have := not_lt.mp hf
      linarith
    rw [if_neg (not_lt.mpr (by linarith : (0:ℚ) ≤ t))]
    rcases lt_trichotomy t 150000 with h1 | h1 | h1
    · rw [if_pos (show (150000:ℚ) > t from h1), if_pos h1]
      ring
    · subst h1
      rw [if_neg (show ¬(150000:ℚ) > 150000 by norm_num),
          if_neg (show ¬(150000:ℚ) > 150000 by norm_num),
          if_neg (show ¬(150000:ℚ) > 150000 by norm_num),
          if_pos (show (500000:ℚ) > 150000 by norm_num),
          if_neg (show ¬(150000:ℚ) < 150000 by norm_num),
          if_pos (show (150000:ℚ) = 150000 from rfl)]
      norm_num
    · rw [if_neg (not_lt.mpr (le_of_lt h1)),
          if_pos (show t > 150000 from h1),
          if_neg (not_lt.mpr (le_of_lt h1)),
          if_neg (not_lt.mpr (le_of_lt h1)),
          if_neg h1.ne']
      rcases lt_trichotomy t 500000 with h2 | h2 | h2
      · rw [if_pos (show (500000:ℚ) > t from h2), if_pos h2]
        ring
      · subst h2
        rw [if_neg (show ¬(500000:ℚ) > 500000 by norm_num),
            if_neg (show ¬(500000:ℚ) > 500000 by norm_num),
            if_neg (show ¬(500000:ℚ) > 500000 by norm_num),
            if_pos (show (1000000:ℚ) > 500000 by norm_num),
            if_neg (show ¬(500000:ℚ) < 500000 by norm_num),
            if_pos (show (500000:ℚ) = 500000 from rfl)]
        norm_num
      · rw [if_neg (not_lt.mpr (le_of_lt h2)),
            if_pos (show t > 500000 from h2),
            if_neg (not_lt.mpr (le_of_lt h2)),
            if_neg (not_lt.mpr (le_of_lt h2)),
            if_neg h2.ne']
        rcases lt_trichotomy t 1000000 with h3 | h3 | h3
        · rw [if_pos (show (1000000:ℚ) > t from h3), if_pos h3]
          ring
        · subst h3
          rw [if_neg (show ¬(1000000:ℚ) > 1000000 by norm_num),
              if_neg (show ¬(1000000:ℚ) > 1000000 by norm_num),
              if_neg (show ¬(1000000:ℚ) > 1000000 by norm_num),
              if_neg (show ¬(1000000:ℚ) < 1000000 by norm_num),
              if_pos (show (1000000:ℚ) = 1000000 from rfl)]
          norm_num
        · rw [if_neg (not_lt.mpr (le_of_lt h3)),
              if_pos (show t > 1000000 from h3),
              if_neg (not_lt.mpr (le_of_lt h3)),
              if_neg (not_lt.mpr (le_of_lt h3)),
              if_neg h3.ne']
          ring

/-- Full symbolic expansion of the Developer bracket walk (a single unbounded
bracket), proved by reflexivity. -/
theorem supportCost_developer_closed (t : ℚ) :
    supportCostOfTotal DeveloperAwsAccount t =
      (if t * (3/100) < 29 then (29:ℚ)
       else if 0 > t then 0
       else 0 + (t - 0) * (3/100)) := rfl

/-- The Developer surcharge agrees with its piecewise region form everywhere. -/
theorem supportCost_developer_region (t : ℚ) :
    supportCostOfTotal DeveloperAwsAccount t = devRegion t := by
  rw [supportCost_developer_closed]
  unfold devRegion
  by_cases hf : t * (3/100) < 29
  · rw [if_pos hf, if_pos hf]
  · rw [if_neg hf, if_neg hf]
    have ht : (0:ℚ) ≤ t := by
      have := not_lt.mp hf
      nlinarith
    rw [if_neg (not_lt.mpr ht)]
    ring

set_option maxHeartbeats 1600000 in
theorem busRegion_mono (t1 t2 : ℚ) (h12 : t1 ≤ t2)
    (h1a : t1 ≠ 10000) (h1b : t1 ≠ 80000) (h1c : t1 ≠ 250000)
    (h2a : t2 ≠ 10000) (h2b : t2 ≠ 80000) (h2c : t2 ≠ 250000) :
    busRegion t1 ≤ busRegion t2 := by
  unfold busRegion
  split_ifs <;> linarith

set_option maxHeartbeats 1600000 in
theorem entRegion_mono (t1 t2 : ℚ) (h12 : t1 ≤ t2)
    (h1a : t1 ≠ 150000) (h1b : t1 ≠ 500000) (h1c : t1 ≠ 1000000)
    (h2a : t2 ≠ 150000) (h2b : t2 ≠ 500000) (h2c : t2 ≠ 1000000) :
    entRegion t1 ≤ entRegion t2 := by
  unfold entRegion
  split_ifs <;> linarith

theorem devRegion_mono (t1 t2 : ℚ) (h12 : t1 ≤ t2) : devRegion t1 ≤ devRegion t2 := by
  unfold devRegion
  split_ifs <;> linarith

/-- C2 counterexample: the Business surcharge is not monotone non-decreasing in
the total, and the value at a bracket upper bound is not approached from below:
at total 9999 the surcharge is 999.9, but at the first bracket boundary 10000
itself both strict comparisons of the walk fail, the bracket is skipped, and
the surcharge collapses to 0. -/
theorem supportCost_boundary_collapse :
    supportCostOfTotal BusinessAwsAccount 9999 = 9999/10
    ∧ supportCostOfTotal BusinessAwsAccount 10000 = 0
    ∧ ¬ (supportCostOfTotal BusinessAwsAccount 9999
          ≤ supportCostOfTotal BusinessAwsAccount 10000) := by
  have e1 : supportCostOfTotal BusinessAwsAccount 9999 = 9999/10 := by
    rw [supportCost_business_region]
    unfold busRegion
    norm_num
  have e2 : supportCostOfTotal BusinessAwsAccount 10000 = 0 := by
    rw [supportCost_business_region]
    unfold busRegion
    norm_num
  refine ⟨e1, e2, ?_⟩
  rw [e1, e2]
  norm_num

/-- C2 (amended): for each configured account profile the surcharge is monotone
non-decreasing as a function of the summed total, restricted to totals that are
not exactly equal to a finite bracket upper bound; and at each finite bracket
boundary the values just below and just above the boundary approach one another
(their difference is linear in the offset, so there is no double-count and no
gap between the adjacent affine pieces) — although the value exactly at the
boundary drops the skipped bracket (see the counterexample). -/
theorem supportCost_monotone_offBoundary :
    (∀ t1 t2 : ℚ, t1 ≤ t2 →
        supportCostOfTotal DeveloperAwsAccount t1
          ≤ supportCostOfTotal DeveloperAwsAccount t2)
    ∧ (∀ t1 t2 : ℚ, t1 ≤ t2 →
        t1 ≠ 10000 → t1 ≠ 80000 → t1 ≠ 250000 →
        t2 ≠ 10000 → t2 ≠ 80000 → t2 ≠ 250000 →
        supportCostOfTotal BusinessAwsAccount t1
          ≤ supportCostOfTotal BusinessAwsAccount t2)
    ∧ (∀ t1 t2 : ℚ, t1 ≤ t2 →
        t1 ≠ 150000 → t1 ≠ 500000 → t1 ≠ 1000000 →
        t2 ≠ 150000 → t2 ≠ 500000 → t2 ≠ 1000000 →
        supportCostOfTotal EnterpriseAwsAccount t1
          ≤ supportCostOfTotal EnterpriseAwsAccount t2)
    ∧ (∀ e : ℚ, 0 < e → e < 1000 →
        supportCostOfTotal BusinessAwsAccount (10000 + e)
            - supportCostOfTotal BusinessAwsAccount (10000 - e) = e * (1/10 + 7/100)
        ∧ supportCostOfTotal BusinessAwsAccount (80000 + e)
            - supportCostOfTotal BusinessAwsAccount (80000 - e) = e * (7/100 + 5/100)
        ∧ supportCostOfTotal BusinessAwsAccount (250000 + e)
            - supportCostOfTotal BusinessAwsAccount (250000 - e) = e * (5/100 + 3/100)
        ∧ supportCostOfTotal EnterpriseAwsAccount (150000 + e)
            - supportCostOfTotal EnterpriseAwsAccount (150000 - e) = e * (7/100)
        ∧ supportCostOfTotal EnterpriseAwsAccount (500000 + e)
            - supportCostOfTotal EnterpriseAwsAccount (500000 - e) = e * (7/100 + 5/100)
        ∧ supportCostOfTotal EnterpriseAwsAccount (1000000 + e)
            - supportCostOfTotal EnterpriseAwsAccount (1000000 - e) = e * (5/100 + 3/100)) := by
  refine ⟨?_, ?_, ?_, ?_⟩
  · intro t1 t2 h12
    rw [supportCost_developer_region, supportCost_developer_region]
    exact devRegion_mono t1 t2 h12
  · intro t1 t2 h12 h1a h1b h1c h2a h2b h2c
    rw [supportCost_business_region, supportCost_business_region]
    exact busRegion_mono t1 t2 h12 h1a h1b h1c h2a h2b h2c
  · intro t1 t2 h12 h1a h1b h1c h2a h2b h2c
    rw [supportCost_enterprise_region, supportCost_enterprise_region]
    exact entRegion_mono t1 t2 h12 h1a h1b h1c h2a h2b h2c
  · intro e he0 he1
    refine ⟨?_, ?_, ?_, ?_, ?_, ?_⟩
    · rw [supportCost_business_region, supportCost_business_region]
      unfold busRegion
      rw [if_neg (not_lt.mpr (by linarith : (100:ℚ) ≤ (10000 + e) * (1/10))),
          if_neg (not_lt.mpr (by linarith : (10000:ℚ) ≤ 10000 + e)),
          if_neg (show ¬(10000 + e = 10000) by intro h; linarith),
          if_pos (show (10000:ℚ) + e < 80000 by linarith),
          if_neg (not_lt.mpr (by linarith : (100:ℚ) ≤ (10000 - e) * (1/10))),
          if_pos (show (10000:ℚ) - e < 10000 by linarith)]
      ring
    · rw [supportCost_business_region, supportCost_business_region]
      unfold busRegion
      rw [if_neg (not_lt.mpr (by linarith : (100:ℚ) ≤ (80000 + e) * (1/10))),
          if_neg (not_lt.mpr (by linarith : (10000:ℚ) ≤ 80000 + e)),
          if_neg (show ¬(80000 + e = 10000) by intro h; linarith),
          if_neg (not_lt.mpr (by linarith : (80000:ℚ) ≤ 80000 + e)),
          if_neg (show ¬(80000 + e = 80000) by intro h; linarith),
          if_pos (show (80000:ℚ) + e < 250000 by linarith),
          if_neg (not_lt.mpr (by linarith : (100:ℚ) ≤ (80000 - e) * (1/10))),
          if_neg (not_lt.mpr (by linarith : (10000:ℚ) ≤ 80000 - e)),
          if_neg (show ¬(80000 - e = 10000) by intro h; linarith),
          if_pos (show (80000:ℚ) - e < 80000 by linarith)]
      ring
    · rw [supportCost_business_region, supportCost_business_region]
      unfold busRegion
      rw [if_neg (not_lt.mpr (by linarith : (100:ℚ) ≤ (250000 + e) * (1/10))),
          if_neg (not_lt.mpr (by linarith : (10000:ℚ) ≤ 250000 + e)),
          if_neg (show ¬(250000 + e = 10000) by intro h; linarith),
          if_neg (not_lt.mpr (by linarith : (80000:ℚ) ≤ 250000 + e)),
          if_neg (show ¬(250000 + e = 80000) by intro h; linarith),
          if_neg (not_lt.mpr (by linarith : (250000:ℚ) ≤ 250000 + e)),
          if_neg (show ¬(250000 + e = 250000) by intro h; linarith),
          if_neg (not_lt.mpr (by linarith : (100:ℚ) ≤ (250000 - e) * (1/10))),
          if_neg (not_lt.mpr (by linarith : (10000:ℚ) ≤ 250000 - e)),
          if_neg (show ¬(250000 - e = 10000) by intro h; linarith),
          if_neg (not_lt.mpr (by linarith : (80000:ℚ) ≤ 250000 - e)),
          if_neg (show ¬(250000 - e = 80000) by intro h; linarith),
          if_pos (show (250000:ℚ) - e < 250000 by linarith)]
      ring
    · rw [supportCost_enterprise_region, supportCost_enterprise_region]
      unfold entRegion
      rw [if_neg (not_lt.mpr (by linarith : (15000:ℚ) ≤ (150000 + e) * (1/10))),
          if_neg (not_lt.mpr (by linarith : (150000:ℚ) ≤ 150000 + e)),
          if_neg (show ¬(150000 + e = 150000) by intro h; linarith),
          if_pos (show (150000:ℚ) + e < 500000 by linarith),
          if_pos (show (150000 - e) * (1/10) < 15000 by linarith)]
      ring
    · rw [supportCost_enterprise_region, supportCost_enterprise_region]
      unfold entRegion
      rw [if_neg (not_lt.mpr (by linarith : (15000:ℚ) ≤ (500000 + e) * (1/10))),
          if_neg (not_lt.mpr (by linarith : (150000:ℚ) ≤ 500000 + e)),
          if_neg (show ¬(500000 + e = 150000) by intro h; linarith),
          if_neg (not_lt.mpr (by linarith : (500000:ℚ) ≤ 500000 + e)),
          if_neg (show ¬(500000 + e = 500000) by intro h; linarith),
          if_pos (show (500000:ℚ) + e < 1000000 by linarith),
          if_neg (not_lt.mpr (by linarith : (15000:ℚ) ≤ (500000 - e) * (1/10))),
          if_neg (not_lt.mpr (by linarith : (150000:ℚ) ≤ 500000 - e)),
          if_neg (show ¬(500000 - e = 150000) by intro h; linarith),
          if_pos (show (500000:ℚ) - e < 500000 by linarith)]
      ring
    · rw [supportCost_enterprise_region, supportCost_enterprise_region]
      unfold entRegion
      rw [if_neg (not_lt.mpr (by linarith : (15000:ℚ) ≤ (1000000 + e) * (1/10))),
          if_neg (not_lt.mpr (by linarith : (150000:ℚ) ≤ 1000000 + e)),
          if_neg (show ¬(1000000 + e = 150000) by intro h; linarith),
          if_neg (not_lt.mpr (by linarith : (500000:ℚ) ≤ 1000000 + e)),
          if_neg (show ¬(1000000 + e = 500000) by intro h; linarith),
          if_neg (not_lt.mpr (by linarith : (1000000:ℚ) ≤ 1000000 + e)),
          if_neg (show ¬(1000000 + e = 1000000) by intro h; linarith),
          if_neg (not_lt.mpr (by linarith : (15000:ℚ) ≤ (1000000 - e) * (1/10))),
          if_neg (not_lt.mpr (by linarith : (150000:ℚ) ≤ 1000000 - e)),
          if_neg (show ¬(1000000 - e = 150000) by intro h; linarith),
          if_neg (not_lt.mpr (by linarith : (500000:ℚ) ≤ 1000000 - e)),
          if_neg (show ¬(1000000 - e = 500000) by intro h; linarith),
          if_pos (show (1000000:ℚ) - e < 1000000 by linarith)]
      ring

/-- Witness for `supportCost_monotone_offBoundary`: the Business surcharge at
total 2000 does not exceed the one at total 50000 (neither total is a bracket
boundary). -/
theorem supportCost_monotone_offBoundary_witness :
    supportCostOfTotal BusinessAwsAccount 2000
      ≤ supportCostOfTotal BusinessAwsAccount 50000 :=
  supportCost_monotone_offBoundary.2.1 2000 50000 (by norm_num) (by norm_num)
    (by norm_num) (by norm_num) (by norm_num) (by norm_num) (by norm_num)

/-- Append-if folds (the shape of every output-building loop in the source)
compute a `filterMap`. -/
theorem foldl_append_if_eq_filterMap {α β : Type} (p : α → Prop) [DecidablePred p]
    (v : α → β) (l : List α) (init : List β) :
    l.foldl (fun acc x => if p x then acc ++ [v x] else acc) init
      = init ++ l.filterMap (fun x => if p x then some (v x) else none) := by
  induction l generalizing init with
  | nil => simp
  | cons a l ih =>
    simp only [List.foldl_cons, List.filterMap_cons]
    by_cases h : p a
    · simp [h, ih]
    · simp [h, ih]

/-- C4: the date-series aggregator emits, in input order, one point per period
whose amount is the period's designated cost metric amount plus the even
surcharge share `s / periodCount`, keeping the point exactly when that sum is
strictly positive; and when the support-cost feature is disabled the surcharge
used is 0 (and no error is ever returned). -/
theorem aggregationForAWS_dateSeries (cfg : Config) (s : ℚ)
    (results : List ResultByTime)
    (h : ∀ r ∈ results, ∃ nm mv, r.Total = [(nm, mv)]) :
    dateAggregationLoop cfg s results
        = results.filterMap
            (fun r =>
              let a := periodMetricAmount cfg r + s / (results.length : ℚ)
              if 0 < a then some ⟨r.Start, a⟩ else none)
    ∧ (cfg.supportCost = false →
        aggregationForAWS cfg results = (dateAggregationLoop cfg 0 results, none)) := by
  constructor
  · have key := foldl_append_if_eq_filterMap
      (fun r : ResultByTime =>
        0 < r.Total.foldl
          (fun _ m => getAwsMetricAmount cfg m.2 + s / (results.length : ℚ)) 0)
      (fun r : ResultByTime =>
        (⟨r.Start,
          r.Total.foldl
            (fun _ m => getAwsMetricAmount cfg m.2 + s / (results.length : ℚ)) 0⟩ :
          DateAggregation))
      results []
    refine Eq.trans key ?_
    rw [List.nil_append]
    apply List.filterMap_congr
    intro r hr
    obtain ⟨nm, mv, hmv⟩ := h r hr
    simp [hmv, periodMetricAmount, List.headI]
  · intro hoff
    unfold aggregationForAWS
    rw [hoff]
    simp

/-- Witness for `aggregationForAWS_dateSeries`: a single well-formed period
with amount 7 and surcharge 6. -/
theorem aggregationForAWS_dateSeries_witness :
    (∀ r ∈ [netPeriod "2021-01-01" 7], ∃ nm mv, r.Total = [(nm, mv)])
    ∧ dateAggregationLoop ⟨false, "", false⟩ 6 [netPeriod "2021-01-01" 7]
        = [netPeriod "2021-01-01" 7].filterMap
            (fun r =>
              let a := periodMetricAmount ⟨false, "", false⟩ r
                + 6 / (([netPeriod "2021-01-01" 7] : List ResultByTime).length : ℚ)
              if 0 < a then some ⟨r.Start, a⟩ else none) := by
  have h : ∀ r ∈ [netPeriod "2021-01-01" 7], ∃ nm mv, r.Total = [(nm, mv)] := by
    intro r hr
    rw [List.mem_singleton] at hr
    subst hr
    exact ⟨MetricNetAmortizedCost, ⟨some 7⟩, rfl⟩
  exact ⟨h,
    (aggregationForAWS_dateSeries ⟨false, "", false⟩ 6 [netPeriod "2021-01-01" 7] h).1⟩

theorem addKeys_nil (s : List (String × ℕ)) : addKeys [] s = s := rfl

theorem addKeys_cons (k : String) (l : List String) (s : List (String × ℕ)) :
    addKeys (k :: l) s
      = addKeys l (if (s.lookup k).isSome then s else s ++ [(k, s.length)]) := rfl

theorem addKeys_append (a b : List String) (s : List (String × ℕ)) :
    addKeys (a ++ b) s = addKeys b (addKeys a s) := by
  unfold addKeys
  rw [List.foldl_append]

theorem fsE_cons (seen : List String) (k : String) (l : List String) :
    fsE seen (k :: l)
      = if k ∈ seen then fsE seen l else k :: fsE (seen ++ [k]) l := rfl

/-- Association-list lookup succeeds exactly on the stored keys. -/
theorem lookup_isSome_iff {β : Type} (l : List (String × β)) (k : String) :
    (l.lookup k).isSome = true ↔ k ∈ l.map Prod.fst := by
  induction l with
  | nil => simp [List.lookup]
  | cons a l ih =>
    rcases a with ⟨a1, b1⟩
    by_cases h : k = a1
    · subst h
      simp [List.lookup]
    · have hbeq : (k == a1) = false := beq_eq_false_iff_ne.mpr h
      simp only [List.lookup, hbeq, List.map_cons, List.mem_cons]
      rw [ih]
      simp [h]

/-- The nested period/group scan of `getGroupedAwsKeyIndex` is the flat scan
of the key sequence. -/
theorem keyIndex_flatten (results : List ResultByTime) :
    ∀ s,
      results.foldl
        (fun keys r =>
          r.Groups.foldl
            (fun keys g =>
              if (keys.lookup g.Keys.headI).isSome then keys
              else keys ++ [(g.Keys.headI, keys.length)])
            keys)
        s
      = addKeys (allGroupKeys results) s := by
  induction results with
  | nil =>
    intro s
    simp [addKeys, allGroupKeys]
  | cons r rs ih =>
    intro s
    rw [List.foldl_cons, ih]
    rw [show allGroupKeys (r :: rs)
        = r.Groups.map (fun g => g.Keys.headI) ++ allGroupKeys rs from by
      simp [allGroupKeys]]
    rw [addKeys_append]
    congr 1
    unfold addKeys
    rw [List.foldl_map]

/-- Invariant of the flat key-index scan: the stored keys extend the seen ones
by the unseen keys in first-seen order, the slots are `0, 1, 2, …` in storage
order, distinctness is preserved, and the keys stored afterwards are exactly
the old ones plus the scanned ones. -/
theorem addKeys_spec (l : List String) :
    ∀ s : List (String × ℕ),
      s.map Prod.snd = List.range s.length →
      ((addKeys l s).map Prod.fst = s.map Prod.fst ++ fsE (s.map Prod.fst) l
       ∧ (addKeys l s).map Prod.snd = List.range (addKeys l s).length
       ∧ ((s.map Prod.fst).Nodup → ((addKeys l s).map Prod.fst).Nodup)
       ∧ (∀ x, x ∈ (addKeys l s).map Prod.fst ↔ x ∈ s.map Prod.fst ∨ x ∈ l)) := by
  induction l with
  | nil =>
    intro s hs
    refine ⟨by simp [addKeys_nil, fsE], by simpa [addKeys_nil] using hs,
      fun h => by simpa [addKeys_nil] using h, fun x => by simp [addKeys_nil]⟩
  | cons k l ih =>
    intro s hs
    rw [addKeys_cons]
    by_cases hk : (s.lookup k).isSome = true
    · rw [if_pos hk]
      have hmem : k ∈ s.map Prod.fst := (lookup_isSome_iff s k).mp hk
      obtain ⟨H1, H2, H3, H4⟩ := ih s hs
      refine ⟨?_, H2, H3, ?_⟩
      · rw [H1, fsE_cons, if_pos hmem]
      · intro x
        rw [H4 x]
        constructor
        · rintro (h | h)
          · exact Or.inl h
          · exact Or.inr (List.mem_cons_of_mem _ h)
        · rintro (h | h)
          · exact Or.inl h
          · rcases List.mem_cons.mp h with rfl | h2
            · exact Or.inl hmem
            · exact Or.inr h2
    · rw [if_neg hk]
      have hmem : k ∉ s.map Prod.fst := fun hm => hk ((lookup_isSome_iff s k).mpr hm)
      have hs' : (s ++ [(k, s.length)]).map Prod.snd
          = List.range (s ++ [(k, s.length)]).length := by
        simp [hs, List.range_succ]
      obtain ⟨H1, H2, H3, H4⟩ := ih (s ++ [(k, s.length)]) hs'
      refine ⟨?_, H2, ?_, ?_⟩
      · rw [H1, fsE_cons, if_neg hmem]
        simp [List.append_assoc]
      · intro hnd
        apply H3
        simp only [List.map_append, List.map_cons, List.map_nil]
        rw [List.nodup_append]
        refine ⟨hnd, List.nodup_singleton _, ?_⟩
        simpa using hmem
      · intro x
        rw [H4 x]
        simp only [List.map_append, List.map_cons, List.map_nil, List.mem_append,
          List.mem_singleton, List.mem_cons]
        tauto

/-- C5: the key indexer maps the distinct first-level group keys, in first-seen
order over the left-to-right scan of periods then groups, to the slots
`0, 1, …, n-1` in that order; each key appears exactly once (so the mapping is
functional), the keys stored are exactly the keys observed, and re-running on
the same sequence yields the identical mapping. -/
theorem getGroupedAwsKeyIndex_spec (results : List ResultByTime) :
    (getGroupedAwsKeyIndex results).map Prod.fst = firstSeen (allGroupKeys results)
    ∧ (getGroupedAwsKeyIndex results).map Prod.snd
        = List.range (getGroupedAwsKeyIndex results).length
    ∧ ((getGroupedAwsKeyIndex results).map Prod.fst).Nodup
    ∧ (∀ x, x ∈ (getGroupedAwsKeyIndex results).map Prod.fst
          ↔ x ∈ allGroupKeys results)
    ∧ getGroupedAwsKeyIndex results = getGroupedAwsKeyIndex results := by
  have hflat : getGroupedAwsKeyIndex results = addKeys (allGroupKeys results) [] :=
    keyIndex_flatten results []
  obtain ⟨H1, H2, H3, H4⟩ := addKeys_spec (allGroupKeys results) [] (by simp)
  rw [hflat]
  refine ⟨?_, H2, H3 (by simp), fun x => ?_, rfl⟩
  · simpa [firstSeen] using H1
  · simpa using H4 x

/-- Effect of one period's group loop on one key's series slot. -/
theorem groupedGroupsLoop_apply (cfg : Config) (date : String) (gs : List Group) :
    ∀ (st : String → List DateAggregation) (k : String),
      (gs.foldl (groupedSeriesStep cfg date) st) k
        = st k ++ gs.filterMap
            (fun g =>
              if g.Keys.headI = k ∧ 0 < groupAmount cfg g then
                some ⟨date, groupAmount cfg g⟩
              else none) := by
  induction gs with
  | nil =>
    intro st k
    simp
  | cons g gs ih =>
    intro st k
    rw [List.foldl_cons, ih, List.filterMap_cons]
    by_cases hpos : 0 < groupAmount cfg g
    · by_cases hk : g.Keys.headI = k
      · subst hk
        rw [if_pos ⟨rfl, hpos⟩]
        simp [groupedSeriesStep, hpos]
      · rw [if_neg (fun hc => hk hc.1)]
        have hk2 : ¬(k = g.Keys.headI) := fun h => hk h.symm
        simp [groupedSeriesStep, hpos, hk2]
    · rw [if_neg (fun hc => hpos hc.2)]
      simp [groupedSeriesStep, hpos]

/-- The per-key series state after all periods equals the specification-side
series for that key. -/
theorem groupedSeriesState_apply (cfg : Config) (results : List ResultByTime) :
    ∀ k, groupedSeriesState cfg results k = directSeries cfg results k := by
  suffices h : ∀ st : String → List DateAggregation, ∀ k,
      (results.foldl (fun st r => r.Groups.foldl (groupedSeriesStep cfg r.Start) st) st) k
        = st k ++ directSeries cfg results k by
    intro k
    simpa [groupedSeriesState] using h (fun _ => []) k
  induction results with
  | nil =>
    intro st k
    simp [directSeries]
  | cons r rs ih =>
    intro st k
    rw [List.foldl_cons, ih, groupedGroupsLoop_apply]
    simp [directSeries, List.append_assoc]

/-- C6 (amended): for every enumeration of the key map (any permutation of the
key index — Go's map iteration order is unspecified, so indexer order is not
guaranteed), the grouped aggregator emits, in enumeration order, one series per
discovered key containing exactly one point per period/group occurrence of the
key with strictly positive amount (carrying the period's date), and omits every
key whose filtered series is empty; no error is returned. -/
theorem getGroupedAwsProducts_spec (cfg : Config) (order : List (String × ℕ))
    (results : List ResultByTime)
    (hord : order.Perm (getGroupedAwsKeyIndex results)) :
    getGroupedAwsProducts cfg order results
      = (order.filterMap
          (fun ki =>
            if directSeries cfg results ki.1 ≠ [] then
              some ⟨ki.1, directSeries cfg results ki.1⟩
            else none), none) := by
  unfold getGroupedAwsProducts
  simp only [Prod.mk.injEq]
  refine ⟨?_, trivial⟩
  have key := foldl_append_if_eq_filterMap
    (fun ki : String × ℕ => 0 < (groupedSeriesState cfg results ki.1).length)
    (fun ki : String × ℕ =>
      (⟨ki.1, groupedSeriesState cfg results ki.1⟩ : ProductCost))
    order []
  refine Eq.trans key ?_
  rw [List.nil_append]
  apply List.filterMap_congr
  intro ki _
  rw [groupedSeriesState_apply cfg results ki.1]
  by_cases h : directSeries cfg results ki.1 = []
  · simp [h]
  · simp [h, List.length_pos.mpr h]

/-- Witness for `getGroupedAwsProducts_spec`: the identity enumeration of the
two-key example input. -/
theorem getGroupedAwsProducts_spec_witness :
    (getGroupedAwsKeyIndex [exPeriod1]).Perm (getGroupedAwsKeyIndex [exPeriod1])
    ∧ getGroupedAwsProducts cfg0 (getGroupedAwsKeyIndex [exPeriod1]) [exPeriod1]
        = ((getGroupedAwsKeyIndex [exPeriod1]).filterMap
            (fun ki =>
              if directSeries cfg0 [exPeriod1] ki.1 ≠ [] then
                some ⟨ki.1, directSeries cfg0 [exPeriod1] ki.1⟩
              else none), none) :=
  ⟨List.Perm.refl _,
    getGroupedAwsProducts_spec cfg0 _ [exPeriod1] (List.Perm.refl _)⟩

/-- C6 counterexample: the reversed enumeration of the key map is a legitimate
Go map iteration order, and under it the output is NOT in indexer (first-seen)
order: the indexer stores "A" before "B", but the output lists "B" first. -/
theorem getGroupedAwsProducts_order_counterexample :
    ([(("B" : String), (1 : ℕ)), ("A", 0)]).Perm (getGroupedAwsKeyIndex [exPeriod1])
    ∧ (getGroupedAwsKeyIndex [exPeriod1]).map Prod.fst = ["A", "B"]
    ∧ ((getGroupedAwsProducts cfg0 [("B", 1), ("A", 0)] [exPeriod1]).1.map ProductCost.Id
        = ["B", "A"])
    ∧ ((getGroupedAwsProducts cfg0 [("B", 1), ("A", 0)] [exPeriod1]).1.map ProductCost.Id
        ≠ (getGroupedAwsKeyIndex [exPeriod1]).map Prod.fst) := by
  constructor
  · have : getGroupedAwsKeyIndex [exPeriod1] = [("A", 0), ("B", 1)] := by
      simp [getGroupedAwsKeyIndex, exPeriod1, List.lookup]
    rw [this]
    exact List.Perm.swap _ _ _
  refine ⟨?_, ?_, ?_⟩
  · simp [getGroupedAwsKeyIndex, exPeriod1, List.lookup]
  · simp [getGroupedAwsProducts, groupedSeriesState, groupedSeriesStep, exPeriod1,
      cfg0, groupAmount, getAwsMetricAmount]
  · simp [getGroupedAwsProducts, groupedSeriesState, groupedSeriesStep, exPeriod1,
      cfg0, groupAmount, getAwsMetricAmount, getGroupedAwsKeyIndex, List.lookup]

theorem entityLoop_nil (cfg : Config) (midPoint i : ℕ) (st : String → ℚ × ℚ) :
    entityLoop cfg midPoint i [] st = st := rfl

theorem entityLoop_cons (cfg : Config) (midPoint i : ℕ) (r : ResultByTime)
    (rs : List ResultByTime) (st : String → ℚ × ℚ) :
    entityLoop cfg midPoint i (r :: rs) st
      = entityLoop cfg midPoint (i + 1) rs
          (r.Groups.foldl (entityGroupStep cfg midPoint i) st) := rfl

/-- Effect of one period's group loop on one key's bucket pair: the key's group
amounts are summed into bucket 1 when `midPoint ≤ i`, into bucket 0 otherwise. -/
theorem entityGroupsLoop_apply (cfg : Config) (midPoint i : ℕ) (gs : List Group) :
    ∀ (st : String → ℚ × ℚ) (k : String),
      (gs.foldl (entityGroupStep cfg midPoint i) st) k
        = if midPoint ≤ i then
            ((st k).1, (st k).2 + groupKeySum cfg k gs)
          else
            ((st k).1 + groupKeySum cfg k gs, (st k).2) := by
  induction gs with
  | nil =>
    intro st k
    by_cases h : midPoint ≤ i <;> simp [h, groupKeySum]
  | cons g gs ih =>
    intro st k
    rw [List.foldl_cons, ih]
    by_cases h : midPoint ≤ i
    · simp only [if_pos h]
      by_cases hk : g.Keys.headI = k
      · subst hk
        simp [entityGroupStep, h, groupKeySum, List.filter_cons, add_assoc]
      · have hk2 : ¬(k = g.Keys.headI) := fun hh => hk hh.symm
        simp [entityGroupStep, h, hk2, groupKeySum, List.filter_cons, hk]
    · simp only [if_neg h]
      by_cases hk : g.Keys.headI = k
      · subst hk
        simp [entityGroupStep, h, groupKeySum, List.filter_cons, add_assoc]
      · have hk2 : ¬(k = g.Keys.headI) := fun hh => hk hh.symm
        simp [entityGroupStep, h, hk2, groupKeySum, List.filter_cons, hk]

/-- The indexed entity loop routes each period's key sums into bucket 0 for the
periods before the midpoint and bucket 1 for the rest: starting at index `i`,
the first `midPoint - i` remaining periods feed bucket 0. -/
theorem entityLoop_apply (cfg : Config) (midPoint : ℕ) (rs : List ResultByTime) :
    ∀ (i : ℕ) (st : String → ℚ × ℚ) (k : String),
      entityLoop cfg midPoint i rs st k
        = ((st k).1 + periodKeySum cfg k (rs.take (midPoint - i)),
           (st k).2 + periodKeySum cfg k (rs.drop (midPoint - i))) := by
  induction rs with
  | nil =>
    intro i st k
    simp [entityLoop_nil, periodKeySum]
  | cons r rs ih =>
    intro i st k
    rw [entityLoop_cons, ih (i + 1), entityGroupsLoop_apply]
    by_cases h : midPoint ≤ i
    · have h0 : midPoint - i = 0 := Nat.sub_eq_zero_of_le h
      have h1 : midPoint - (i + 1) = 0 :=
        Nat.sub_eq_zero_of_le (le_trans h (Nat.le_succ i))
      rw [if_pos h, h0, h1]
      simp [periodKeySum, add_assoc]
    · have h0 : midPoint - i = (midPoint - (i + 1)) + 1 := by omega
      rw [if_neg h, h0, List.take_succ_cons, List.drop_succ_cons]
      simp [periodKeySum, add_assoc]

/-- C7: the two-period entity aggregator splits at `midPoint = n / 2` (integer
division, so an odd length `2k+1` yields `midPoint = k`: the first `k` periods
feed bucket 0 and the remaining `k+1` feed bucket 1); each period before the
midpoint adds its group amounts for a key into the key's bucket 0, the rest
into bucket 1, and a key is emitted (in map-enumeration order) exactly when its
`[before, after]` pair is not both exactly zero; no error is returned. -/
theorem getEntityAwsProducts_spec (cfg : Config) (order : List (String × ℕ))
    (results : List ResultByTime)
    (hord : order.Perm (getGroupedAwsKeyIndex results)) :
    (∀ j : ℕ, results.length = 2 * j + 1 → results.length / 2 = j)
    ∧ getEntityAwsProducts cfg order results
        = (order.filterMap
            (fun ki =>
              let b := periodKeySum cfg ki.1 (results.take (results.length / 2))
              let a := periodKeySum cfg ki.1 (results.drop (results.length / 2))
              if ¬(b = 0 ∧ a = 0) then some ⟨ki.1, (b, a)⟩ else none), none) := by
  constructor
  · intro j hj
    omega
  · unfold getEntityAwsProducts
    simp only [Prod.mk.injEq]
    refine ⟨?_, trivial⟩
    have hst : ∀ k,
        entityLoop cfg (results.length / 2) 0 results (fun _ => (0, 0)) k
          = (periodKeySum cfg k (results.take (results.length / 2)),
             periodKeySum cfg k (results.drop (results.length / 2))) := by
      intro k
      rw [entityLoop_apply]
      simp
    have key := foldl_append_if_eq_filterMap
      (fun ki : String × ℕ =>
        ¬((entityLoop cfg (results.length / 2) 0 results (fun _ => (0, 0)) ki.1).1 = 0
          ∧ (entityLoop cfg (results.length / 2) 0 results (fun _ => (0, 0)) ki.1).2 = 0))
      (fun ki : String × ℕ =>
        (⟨ki.1, entityLoop cfg (results.length / 2) 0 results (fun _ => (0, 0)) ki.1⟩ :
          Entity))
      order []
    refine Eq.trans key ?_
    rw [List.nil_append]
    apply List.filterMap_congr
    intro ki _
    rw [hst ki.1]

/-- Witness for `getEntityAwsProducts_spec`: three periods of a single "EC2"
group (amounts 1, 2, 3), identity enumeration; the midpoint is 1, so bucket 0
holds 1 and bucket 1 holds 5. -/
theorem getEntityAwsProducts_spec_witness :
    (getGroupedAwsKeyIndex [exEC2 "d1" 1, exEC2 "d2" 2, exEC2 "d3" 3]).Perm
        (getGroupedAwsKeyIndex [exEC2 "d1" 1, exEC2 "d2" 2, exEC2 "d3" 3])
    ∧ getEntityAwsProducts cfg0
        (getGroupedAwsKeyIndex [exEC2 "d1" 1, exEC2 "d2" 2, exEC2 "d3" 3])
        [exEC2 "d1" 1, exEC2 "d2" 2, exEC2 "d3" 3]
      = ((getGroupedAwsKeyIndex [exEC2 "d1" 1, exEC2 "d2" 2, exEC2 "d3" 3]).filterMap
          (fun ki =>
            let b := periodKeySum cfg0 ki.1
              (([exEC2 "d1" 1, exEC2 "d2" 2, exEC2 "d3" 3] : List ResultByTime).take
                (([exEC2 "d1" 1, exEC2 "d2" 2, exEC2 "d3" 3] : List ResultByTime).length / 2))
            let a := periodKeySum cfg0 ki.1
              (([exEC2 "d1" 1, exEC2 "d2" 2, exEC2 "d3" 3] : List ResultByTime).drop
                (([exEC2 "d1" 1, exEC2 "d2" 2, exEC2 "d3" 3] : List ResultByTime).length / 2))
            if ¬(b = 0 ∧ a = 0) then some ⟨ki.1, (b, a)⟩ else none), none) :=
  ⟨List.Perm.refl _,
    (getEntityAwsProducts_spec cfg0 _ [exEC2 "d1" 1, exEC2 "d2" 2, exEC2 "d3" 3]
      (List.Perm.refl _)).2⟩

/-- C10: the entity aggregator has no positivity filter: zero and negative
amounts are summed into the buckets as-is, and a key whose pair is not both
exactly zero is emitted even when its bucket totals are negative or zero.  With
periods of amounts -5 and 0 the key "EC2" is emitted with pair (-5, 0); with
amounts 0 and 0 the pair is exactly (0, 0) and the key is dropped. -/
theorem getEntityAwsProducts_no_positivity_filter :
    getEntityAwsProducts cfg0
        (getGroupedAwsKeyIndex [exEC2 "2021-01-01" (-5), exEC2 "2021-01-02" 0])
        [exEC2 "2021-01-01" (-5), exEC2 "2021-01-02" 0]
      = ([⟨"EC2", (-5, 0)⟩], none)
    ∧ getEntityAwsProducts cfg0
        (getGroupedAwsKeyIndex [exEC2 "2021-01-01" 0, exEC2 "2021-01-02" 0])
        [exEC2 "2021-01-01" 0, exEC2 "2021-01-02" 0]
      = ([], none) := by
  constructor
  · simp [getEntityAwsProducts, getGroupedAwsKeyIndex, entityLoop, entityGroupStep,
      exEC2, cfg0, groupAmount, getAwsMetricAmount, List.lookup]
  · simp [getEntityAwsProducts, getGroupedAwsKeyIndex, entityLoop, entityGroupStep,
      exEC2, cfg0, groupAmount, getAwsMetricAmount, List.lookup]

/-- C9: a metric whose amount string cannot be parsed as a decimal number is
treated as exactly zero (with or without the rounding flag), and the
surrounding date aggregation still succeeds: it returns a nil error on every
input. -/
theorem getAwsMetricAmount_malformed (cfg : Config) (mv : MetricValue)
    (h : mv.Amount = none) (results : List ResultByTime) :
    getAwsMetricAmount cfg mv = 0
    ∧ (aggregationForAWS cfg results).2 = none := by
  constructor
  · unfold getAwsMetricAmount
    rw [h]
    by_cases hr : cfg.costRound
    · simp only [hr, if_true, Option.getD_none, mathRound]
      norm_num
    · simp [hr]
  · rfl

/-- Witness for `getAwsMetricAmount_malformed`: the unparseable metric value
and the empty aggregation input. -/
theorem getAwsMetricAmount_malformed_witness :
    (MetricValue.mk none).Amount = none
    ∧ getAwsMetricAmount cfg0 ⟨none⟩ = 0
    ∧ (aggregationForAWS cfg0 []).2 = none :=
  ⟨rfl, (getAwsMetricAmount_malformed cfg0 ⟨none⟩ rfl []).1,
    (getAwsMetricAmount_malformed cfg0 ⟨none⟩ rfl []).2⟩

/-- C8 counterexample: for the empty period list the surcharge calculator does
not return an empty (zero) result: the summed total 0 always triggers the
minimum-floor check, so the Business profile yields its flat minimum 100. -/
theorem supportCost_empty_not_zero :
    SupportCostForAWS BusinessAwsAccount [] = (100, none) ∧ (100 : ℚ) ≠ 0 := by
  constructor
  · norm_num [SupportCostForAWS, supportCostOfTotal, sumNetAmortized,
      BusinessAwsAccount, List.headI]
  · norm_num

/-- C8 (amended): every aggregation function is total and returns a nil error
on all inputs; for the empty period list the three list-producing aggregators
return the empty slice, while the surcharge calculator returns the profile's
minimum flat surcharge whenever that minimum is positive (the empty sum 0
triggers the floor), not an empty/zero value. -/
theorem aggregators_total_empty (cfg : Config) (account : AwsAccount)
    (order : List (String × ℕ)) (results : List ResultByTime)
    (hmin : 0 < account.MinSupportCost) :
    (aggregationForAWS cfg results).2 = none
    ∧ (getGroupedAwsProducts cfg order results).2 = none
    ∧ (getEntityAwsProducts cfg order results).2 = none
    ∧ (SupportCostForAWS account results).2 = none
    ∧ aggregationForAWS cfg [] = ([], none)
    ∧ getGroupedAwsProducts cfg [] [] = ([], none)
    ∧ getEntityAwsProducts cfg [] [] = ([], none)
    ∧ SupportCostForAWS account [] = (account.MinSupportCost, none) := by
  refine ⟨rfl, rfl, rfl, rfl, ?_, rfl, rfl, ?_⟩
  · unfold aggregationForAWS dateAggregationLoop
    simp
  · unfold SupportCostForAWS supportCostOfTotal sumNetAmortized
    simp [hmin]

/-- Witness for `aggregators_total_empty`: the Business profile has a positive
minimum, and the empty period list yields that minimum. -/
theorem aggregators_total_empty_witness :
    (0 : ℚ) < BusinessAwsAccount.MinSupportCost
    ∧ SupportCostForAWS BusinessAwsAccount []
        = (BusinessAwsAccount.MinSupportCost, none) := by
  have h : (0 : ℚ) < BusinessAwsAccount.MinSupportCost := by
    norm_num [BusinessAwsAccount]
  exact ⟨h, (aggregators_total_empty cfg0 BusinessAwsAccount [] [] h).2.2.2.2.2.2.2⟩

end AwsCost
